import Mathlib

/-!
Verification development for the multi-agent LLM orchestration system.

Shallow embeddings, translated from the Python sources:
* `src/utils/retry.py` — retry with exponential backoff, circuit breaker;
* `src/utils/llm_client_pool.py` — keyed, health-tracked LLM client pool;
* `src/agents/base_agent.py` — prompt-budget truncation and the LLM
  invocation pipeline (`execute_llm_task` / `_call_local_llama_server`);
* `src/orchestrator/langgraph_orchestrator.py` — conditional routing after
  the implementation node, and the documentation (technical writer) node;
* `src/utils/file_writer.py` — the generated-file extractor
  `extract_file_structure`.

Machine floats in the sources carry only integer-valued configuration and
monotonic-clock values here, so they are embedded as `Int` / `ℚ`.
-/

namespace MultiAgent

/-! ## Circuit breaker — `src/utils/retry.py`, class `CircuitBreaker` -/

/-- The three breaker states `"CLOSED"`, `"OPEN"`, `"HALF_OPEN"`. -/
inductive CBState where
  | closed
  | opened
  | halfOpen
deriving DecidableEq, Repr

/-- Mutable fields of a `CircuitBreaker` instance (`retry.py` lines 35-48)
together with its configuration. -/
structure CircuitBreaker where
  failureThreshold : Nat
  recoveryTimeout : Int
  halfOpenAttempts : Nat
  failureCount : Nat
  lastFailureTime : Option Int
  state : CBState
  halfOpenSuccessCount : Nat
deriving DecidableEq, Repr

/-- `CircuitBreaker.__init__`: counters zero, no failure recorded, CLOSED. -/
def CircuitBreaker.mk0 (failureThreshold : Nat) (recoveryTimeout : Int)
    (halfOpenAttempts : Nat) : CircuitBreaker :=
  { failureThreshold := failureThreshold
    recoveryTimeout := recoveryTimeout
    halfOpenAttempts := halfOpenAttempts
    failureCount := 0
    lastFailureTime := none
    state := .closed
    halfOpenSuccessCount := 0 }

/-- Result of one pass through the wrapper built by `CircuitBreaker.call`. -/
inductive CBCallResult where
  | rejectedOpen        -- `CircuitBreakerError` raised; the callee was NOT invoked
  | returned            -- callee invoked and returned normally
  | raisedCalleeError   -- callee invoked and raised; the breaker re-raises
deriving DecidableEq, Repr

/-- One call through the decorator of `CircuitBreaker.call` (`retry.py`
lines 50-95).  `now` is the event-loop clock at this call; `calleeFails = true`
models the wrapped coroutine raising an exception, `false` a normal return.
The Python guard `if self.last_failure_time and (now - t >= recovery_timeout)`
treats a recorded time of `0` as falsy; the `t ≠ 0` conjunct reproduces that. -/
def cbCall (cb : CircuitBreaker) (now : Int) (calleeFails : Bool) :
    CircuitBreaker × CBCallResult :=
  let entry : Option CircuitBreaker :=
    if cb.state = .opened then
      match cb.lastFailureTime with
      | some t =>
          if t ≠ 0 ∧ now - t ≥ cb.recoveryTimeout then
            some { cb with state := .halfOpen, halfOpenSuccessCount := 0 }
          else none
      | none => none
    else some cb
  match entry with
  | none => (cb, .rejectedOpen)
  | some cb' =>
      if calleeFails then
        let count := cb'.failureCount + 1
        let st :=
          if cb'.state = .halfOpen then CBState.opened
          else if count ≥ cb'.failureThreshold then CBState.opened
          else cb'.state
        ({ cb' with failureCount := count, lastFailureTime := some now, state := st },
          .raisedCalleeError)
      else
        if cb'.state = .halfOpen then
          let s := cb'.halfOpenSuccessCount + 1
          if s ≥ cb'.halfOpenAttempts then
            ({ cb' with halfOpenSuccessCount := s, state := .closed, failureCount := 0 },
              .returned)
          else ({ cb' with halfOpenSuccessCount := s }, .returned)
        else
          ({ cb' with failureCount := 0 }, .returned)

/-- Fold a sequence of failing calls (the callee raising each time, at the
given clock values) through the breaker. -/
def runFailingCalls (cb : CircuitBreaker) (times : List Int) : CircuitBreaker :=
  times.foldl (fun c t => (cbCall c t true).1) cb

/-- A failing call in the CLOSED state increments the counter, records the
failure time, and opens the breaker exactly when the counter reaches the
threshold. -/
lemma cbCall_closed_fail (cb : CircuitBreaker) (h : cb.state = .closed) (t : Int) :
    cbCall cb t true =
      ({ cb with
          failureCount := cb.failureCount + 1
          lastFailureTime := some t
          state := (if cb.failureCount + 1 ≥ cb.failureThreshold then CBState.opened
                    else CBState.closed) },
        .raisedCalleeError) := by
  simp [cbCall, h]

/-- While the failure counter stays below the threshold, failing calls leave
the breaker CLOSED, add one failure per call, record the last failure time,
and touch no configuration field. -/
lemma runFailingCalls_stats (times : List Int) (cb : CircuitBreaker)
    (h : cb.state = .closed)
    (hlt : cb.failureCount + times.length < cb.failureThreshold) :
    runFailingCalls cb times =
      { cb with
        failureCount := cb.failureCount + times.length
        lastFailureTime :=
          (match times.getLast? with
           | some t => some t
           | none => cb.lastFailureTime) } := by
  induction times generalizing cb with
  | nil => simp [runFailingCalls]
  | cons t ts ih =>
      have hopen : ¬ (cb.failureCount + 1 ≥ cb.failureThreshold) := by
        simp only [List.length_cons] at hlt; omega
      have hstep := cbCall_closed_fail cb h t
      rw [if_neg hopen] at hstep
      have hrun : runFailingCalls cb (t :: ts) =
          runFailingCalls
            { cb with failureCount := cb.failureCount + 1, lastFailureTime := some t, state := .closed }
            ts := by
        simp [runFailingCalls, hstep]
      have harg :
          ({ cb with failureCount := cb.failureCount + 1, lastFailureTime := some t, state := CBState.closed } :
            CircuitBreaker).failureCount + ts.length <
          ({ cb with failureCount := cb.failureCount + 1, lastFailureTime := some t, state := CBState.closed } :
            CircuitBreaker).failureThreshold := by
        show cb.failureCount + 1 + ts.length < cb.failureThreshold
        simp only [List.length_cons] at hlt
        omega
      rw [hrun, ih _ rfl harg]
      cases hts : ts.getLast? with
      | none =>
          have hnil : ts = [] := List.getLast?_eq_none_iff.mp hts
          subst hnil
          simp [h]
      | some u =>
          simp [hts, h]
          refine ⟨by omega, ?_⟩
          cases ts with
          | nil => simp at hts
          | cons v vs => simp [List.getLast?_cons_cons, hts]

/-- Exactly when the counter reaches the threshold, the final failing call of
the sequence opens the breaker; the last failure time is the clock of that
call. -/
lemma runFailingCalls_opens (times : List Int) (cb : CircuitBreaker)
    (h : cb.state = .closed) (hne : times ≠ [])
    (hlen : cb.failureCount + times.length = cb.failureThreshold) :
    (runFailingCalls cb times).state = .opened ∧
    (runFailingCalls cb times).lastFailureTime = times.getLast? ∧
    (runFailingCalls cb times).recoveryTimeout = cb.recoveryTimeout := by
  induction times generalizing cb with
  | nil => exact absurd rfl hne
  | cons t ts ih =>
      have hstep := cbCall_closed_fail cb h t
      cases ts with
      | nil =>
          have hge : cb.failureCount + 1 ≥ cb.failureThreshold := by
            simp only [List.length_cons, List.length_nil] at hlen; omega
          rw [if_pos hge] at hstep
          simp [runFailingCalls, hstep]
      | cons u us =>
          have hlt : ¬ (cb.failureCount + 1 ≥ cb.failureThreshold) := by
            simp only [List.length_cons] at hlen; omega
          rw [if_neg hlt] at hstep
          have hrw : runFailingCalls cb (t :: u :: us) =
              runFailingCalls
                { cb with failureCount := cb.failureCount + 1, lastFailureTime := some t, state := .closed }
                (u :: us) := by
            simp [runFailingCalls, hstep]
          rw [hrw]
          have := ih
            { cb with failureCount := cb.failureCount + 1, lastFailureTime := some t, state := .closed }
            rfl (by simp)
            (by simp only [List.length_cons] at hlen ⊢; omega)
          simpa [List.getLast?_cons_cons] using this

/-- **C6.** Starting from the CLOSED state with failure counter 0
(`CircuitBreaker.__init__`), exactly `failure_threshold` consecutive failing
calls transition the circuit breaker to OPEN — after every shorter prefix it
is still CLOSED — and the next call made before `recovery_timeout` has
elapsed since the last failure raises the circuit-open error
(`CircuitBreakerError`) without invoking the wrapped callee, leaving the
breaker unchanged (`retry.py` lines 50-95). -/
theorem circuitBreaker_opens_after_threshold_failures
    (thr : Nat) (rt : Int) (hoa : Nat) (hthr : 1 ≤ thr)
    (times : List Int) (hlen : times.length = thr)
    (tl : Int) (htl : times.getLast? = some tl)
    (now : Int) (hnow : now - tl < rt) (calleeFails : Bool) :
    (∀ k, k < thr →
      (runFailingCalls (CircuitBreaker.mk0 thr rt hoa) (times.take k)).state = CBState.closed) ∧
    (runFailingCalls (CircuitBreaker.mk0 thr rt hoa) times).state = CBState.opened ∧
    cbCall (runFailingCalls (CircuitBreaker.mk0 thr rt hoa) times) now calleeFails
      = (runFailingCalls (CircuitBreaker.mk0 thr rt hoa) times, CBCallResult.rejectedOpen) := by
  have hne : times ≠ [] := by
    intro hnil
    rw [hnil] at hlen
    simp at hlen
    omega
  obtain ⟨hst, hlast, hrt⟩ :=
    runFailingCalls_opens times (CircuitBreaker.mk0 thr rt hoa) rfl hne
      (by simp [CircuitBreaker.mk0, hlen])
  refine ⟨?_, hst, ?_⟩
  · intro k hk
    have hstats := runFailingCalls_stats (times.take k) (CircuitBreaker.mk0 thr rt hoa) rfl
      (by simp [CircuitBreaker.mk0, List.length_take, hlen]; omega)
    rw [hstats]
    rfl
  · rw [htl] at hlast
    have hrt' : (runFailingCalls (CircuitBreaker.mk0 thr rt hoa) times).recoveryTimeout = rt := by
      simpa [CircuitBreaker.mk0] using hrt
    have hcond : ¬ (tl ≠ 0 ∧
        now - tl ≥ (runFailingCalls (CircuitBreaker.mk0 thr rt hoa) times).recoveryTimeout) := by
      rw [hrt']
      rintro ⟨-, h2⟩
      omega
    simp [cbCall, hst, hlast, hcond]

/-- Witness for C6: `failure_threshold = 2`, failing calls at clock 5 and 10,
next call at clock 20 with `recovery_timeout = 60`. -/
theorem circuitBreaker_opens_after_threshold_failures_witness :
    (∀ k, k < 2 →
      (runFailingCalls (CircuitBreaker.mk0 2 60 3) (([5, 10] : List Int).take k)).state = CBState.closed) ∧
    (runFailingCalls (CircuitBreaker.mk0 2 60 3) [5, 10]).state = CBState.opened ∧
    cbCall (runFailingCalls (CircuitBreaker.mk0 2 60 3) [5, 10]) 20 false
      = (runFailingCalls (CircuitBreaker.mk0 2 60 3) [5, 10], CBCallResult.rejectedOpen) :=
  circuitBreaker_opens_after_threshold_failures 2 60 3 (by decide) [5, 10] (by decide)
    10 (by decide) 20 (by decide) false

/-! ## Retry with exponential backoff — `src/utils/retry.py`,
`retry_with_exponential_backoff` -/

/-- Behaviour of the wrapped coroutine on one attempt. -/
inductive AttemptOutcome where
  | succeed (value : String)
  | retriableError (msg : String)
  | nonRetriableError (msg : String)
deriving DecidableEq, Repr

/-- How `retry_with_exponential_backoff` ends: normal return, re-raised
non-retriable exception, or `RetryError` wrapping `last_exception`. -/
inductive RetryOutcome where
  | ok (value : String)
  | nonRetriableRaised (msg : String)
  | retriesExhausted (lastError : Option String)
deriving DecidableEq, Repr

/-- The `for attempt in range(max_attempts)` loop of
`retry_with_exponential_backoff` (`retry.py` lines 131-164).  `attempt` is the
0-based loop index and `remaining = max_attempts - attempt`.  Returns the
outcome together with the list of back-off sleeps performed, in order: a sleep
of `min(initial_delay · exponential_base ^ attempt, max_delay)` happens only
when `attempt < max_attempts - 1`, scaled by `0.5 + jitterDraw attempt` (the
`random.random()` sample) when jitter is on. -/
def retryLoopAux (outcomes : Nat → AttemptOutcome) (initialDelay maxDelay expBase : ℚ)
    (jitter : Bool) (jitterDraw : Nat → ℚ) (attempt : Nat) (remaining : Nat)
    (lastError : Option String) : RetryOutcome × List ℚ :=
  match remaining with
  | 0 => (.retriesExhausted lastError, [])
  | r + 1 =>
      match outcomes attempt with
      | .succeed v => (.ok v, [])
      | .nonRetriableError m => (.nonRetriableRaised m, [])
      | .retriableError m =>
          if r = 0 then
            (.retriesExhausted (some m), [])
          else
            let delay0 := min (initialDelay * expBase ^ attempt) maxDelay
            let delay := if jitter then delay0 * (1/2 + jitterDraw attempt) else delay0
            let rest := retryLoopAux outcomes initialDelay maxDelay expBase jitter jitterDraw
              (attempt + 1) r (some m)
            (rest.1, delay :: rest.2)

/-- `retry_with_exponential_backoff(func, ...)` itself: run the attempt loop
from attempt 0 with `last_exception = None`. -/
def retryWithExponentialBackoff (outcomes : Nat → AttemptOutcome) (maxAttempts : Nat)
    (initialDelay maxDelay expBase : ℚ) (jitter : Bool) (jitterDraw : Nat → ℚ) :
    RetryOutcome × List ℚ :=
  retryLoopAux outcomes initialDelay maxDelay expBase jitter jitterDraw 0 maxAttempts none

/-- **C7.** With `max_attempts = 3`, `initial_delay = 1`, `max_delay = 60`,
base 2 and jitter disabled, when every attempt fails with a retriable
exception the loop sleeps `min(1·2^(k−1), 60)` seconds after the k-th failed
attempt for k < 3 — the sleep list is `[1 s, 2 s]`, totalling exactly 3
seconds, with no sleep after the final attempt — and then raises the
dedicated retries-exhausted error (`RetryError`) wrapping the last exception
(`retry.py` lines 131-164). -/
theorem retry_full_failure_sleeps_then_raises (errs : Nat → String) (jitterDraw : Nat → ℚ) :
    retryWithExponentialBackoff (fun k => .retriableError (errs k)) 3 1 60 2 false jitterDraw
      = (.retriesExhausted (some (errs 2)), [1, 2]) ∧
    ([1, 2] : List ℚ).sum = 3 := by
  constructor
  · norm_num [retryWithExponentialBackoff, retryLoopAux, min_def]
  · norm_num

/-! ## LLM client pool — `src/utils/llm_client_pool.py`, class `LLMClientPool` -/

/-- Per-client health record, as created in `get_client` (lines 88-95).
Clock values are `datetime.now()` timestamps in seconds. -/
structure ClientHealth where
  createdAt : Int
  lastCheck : Int
  lastSuccess : Int
  failureCount : Nat
  requestCount : Nat
  successCount : Nat
deriving DecidableEq, Repr

/-- `LLMClientPool._is_client_healthy` (lines 99-119): `none` models a key
missing from `client_health`.  A cached client is unhealthy when
`failure_count >= 5` and the last success is less than 60 s old, or when the
client is more than 3600 s old. -/
def isClientHealthy (h? : Option ClientHealth) (now : Int) : Bool :=
  match h? with
  | none => false
  | some h =>
      if h.failureCount ≥ 5 ∧ now - h.lastSuccess < 60 then false
      else if now - h.createdAt > 3600 then false
      else true

/-- Python-dict assignment `d[k] = v` on an insertion-ordered association
list: an existing key keeps its position, a new key is appended. -/
def dictUpdate {α β : Type} [DecidableEq α] (l : List (α × β)) (k : α) (v : β) :
    List (α × β) :=
  if l.any (fun p => p.1 = k) then l.map (fun p => if p.1 = k then (k, v) else p)
  else l ++ [(k, v)]

/-- The two dictionaries of `LLMClientPool` (`clients`, `client_health`);
client handles are opaque ids. -/
structure LLMClientPool where
  clients : List (String × Nat)
  clientHealth : List (String × ClientHealth)
deriving DecidableEq, Repr

/-- Cache-key construction in `get_client` (line 62):
`api_base + ":" + (api_key[:10] if api_key else "none")`; `api_base` and
`api_key` are the values after the env-var defaulting of lines 58-59. -/
def cacheKey (apiBase apiKey : String) : String :=
  apiBase ++ ":" ++ (if apiKey.isEmpty then "none" else apiKey.take 10)

/-- `LLMClientPool._remove_client` (lines 121-132): drop the key from both
dictionaries. -/
def removeClient (pool : LLMClientPool) (key : String) : LLMClientPool :=
  { clients := pool.clients.filter (fun p => p.1 ≠ key)
    clientHealth := pool.clientHealth.filter (fun p => p.1 ≠ key) }

/-- The client-creation block of `get_client` (lines 74-97): re-check the
cache under the lock, then register the new client (`nextId`) with a fresh
health record. -/
def createClient (pool : LLMClientPool) (key : String) (now : Int) (nextId : Nat) :
    LLMClientPool :=
  match pool.clients.lookup key with
  | some _ => pool
  | none =>
      { clients := dictUpdate pool.clients key nextId
        clientHealth := dictUpdate pool.clientHealth key
          { createdAt := now
            lastCheck := now
            lastSuccess := now
            failureCount := 0
            requestCount := 0
            successCount := 0 } }

/-- `LLMClientPool.get_client` (lines 41-97).  Returns the pool after the
call, the client handle, and whether the cached client was reused. -/
def getClient (pool : LLMClientPool) (apiBase apiKey : String) (now : Int) (nextId : Nat) :
    LLMClientPool × Nat × Bool :=
  let key := cacheKey apiBase apiKey
  match pool.clients.lookup key with
  | some c =>
      if isClientHealthy (pool.clientHealth.lookup key) now then (pool, c, true)
      else
        let pool' := removeClient pool key
        (createClient pool' key now nextId, nextId, false)
  | none => (createClient pool key now nextId, nextId, false)

/-- The reuse condition exactly as claim C4 words it: "(failure_count is
below 5 OR its last success was within the past 60 seconds) AND the client's
age is below 3600 seconds".  Stated from the spec, for comparison with the
behaviour of `get_client`. -/
def specReuseCondition (h : ClientHealth) (now : Int) : Bool :=
  (h.failureCount < 5 ∨ now - h.lastSuccess < 60) ∧ now - h.createdAt < 3600

/-- A key never survives `List.filter (·.1 ≠ key)`. -/
lemma lookup_filter_ne {β : Type} (l : List (String × β)) (k : String) :
    (l.filter (fun p => p.1 ≠ k)).lookup k = none := by
  induction l with
  | nil => rfl
  | cons p ps ih =>
      obtain ⟨a, b⟩ := p
      by_cases hp : a = k
      · simpa [List.filter_cons, hp] using ih
      · have hstep : List.lookup k ((a, b) :: (ps.filter (fun p => p.1 ≠ k))) =
            List.lookup k (ps.filter (fun p => p.1 ≠ k)) := by
          simp [List.lookup, beq_eq_false_iff_ne.mpr (Ne.symm hp)]
        simp only [List.filter_cons]
        rw [if_pos (by simp [hp]), hstep]
        exact ih

/-- Looking up the key just appended to a list that does not contain it. -/
lemma lookup_append_single {β : Type} (l : List (String × β)) (k : String) (v : β)
    (h : l.lookup k = none) : (l ++ [(k, v)]).lookup k = some v := by
  induction l with
  | nil => simp [List.lookup]
  | cons p ps ih =>
      obtain ⟨a, b⟩ := p
      by_cases hp : k = a
      · simp [List.lookup, hp] at h
      · have hb := beq_eq_false_iff_ne.mpr hp
        simp only [List.cons_append, List.lookup, hb] at h ⊢
        exact ih h

/-- A list whose lookup misses `k` has no pair keyed `k`. -/
lemma fst_ne_of_lookup_none {β : Type} (l : List (String × β)) (k : String)
    (h : l.lookup k = none) : ∀ p ∈ l, p.1 ≠ k := by
  induction l with
  | nil => simp
  | cons q qs ih =>
      obtain ⟨c, d⟩ := q
      intro p hp
      by_cases hc : k = c
      · simp [List.lookup, hc] at h
      · have hb := beq_eq_false_iff_ne.mpr hc
        simp only [List.lookup, hb] at h
        rcases List.mem_cons.mp hp with rfl | hmem
        · exact fun hck => hc hck.symm
        · exact ih h p hmem

/-- `dictUpdate` on a list without the key appends the binding. -/
lemma dictUpdate_of_lookup_none {β : Type} (l : List (String × β)) (k : String) (v : β)
    (h : l.lookup k = none) : dictUpdate l k v = l ++ [(k, v)] := by
  rw [dictUpdate, if_neg]
  intro hany
  rw [List.any_eq_true] at hany
  obtain ⟨p, hp, hpk⟩ := hany
  exact fst_ne_of_lookup_none l k h p hp (by simpa using hpk)

/-- **C4 fails on the code.**  A cached entry with `failure_count = 5`, last
success 30 s ago (`now - lastSuccess = 30 < 60`) and client age 100 s
satisfies the claim's reuse condition, yet `get_client` does not reuse it: it
removes the entry and creates a fresh client, because
`_is_client_healthy` declares a client with ≥ 5 failures unhealthy exactly
when its last success IS recent — the opposite of the claim. -/
theorem getClient_reuse_claim_counterexample :
    specReuseCondition ⟨0, 0, 70, 5, 10, 5⟩ 100 = true ∧
    (getClient ⟨[("e:k", 7)], [("e:k", ⟨0, 0, 70, 5, 10, 5⟩)]⟩ "e" "k" 100 9).2.2 = false := by
  decide

/-- **C4, amended.**  For a cached pool entry (present in both `clients` and
`client_health`), `get_client` reuses the existing client if and only if
(`failure_count < 5` OR the last success is at least 60 seconds in the past)
AND the client's age is at most 3600 seconds; on reuse the pool is untouched
and the cached handle is returned, and when the condition fails the entry is
replaced: the returned pool maps the key to the fresh client `nextId` with a
reset health record (`llm_client_pool.py` lines 41-119). -/
theorem getClient_reuse_iff (pool : LLMClientPool) (apiBase apiKey : String)
    (now : Int) (nextId : Nat) (c : Nat) (h : ClientHealth)
    (hc : pool.clients.lookup (cacheKey apiBase apiKey) = some c)
    (hh : pool.clientHealth.lookup (cacheKey apiBase apiKey) = some h) :
    ((getClient pool apiBase apiKey now nextId).2.2 = true ↔
      ((h.failureCount < 5 ∨ 60 ≤ now - h.lastSuccess) ∧ now - h.createdAt ≤ 3600)) ∧
    ((getClient pool apiBase apiKey now nextId).2.2 = true →
      getClient pool apiBase apiKey now nextId = (pool, c, true)) ∧
    ((getClient pool apiBase apiKey now nextId).2.2 = false →
      (getClient pool apiBase apiKey now nextId).1.clients.lookup (cacheKey apiBase apiKey)
        = some nextId ∧
      (getClient pool apiBase apiKey now nextId).1.clientHealth.lookup (cacheKey apiBase apiKey)
        = some ⟨now, now, now, 0, 0, 0⟩) := by
  by_cases hcond : (h.failureCount < 5 ∨ 60 ≤ now - h.lastSuccess) ∧ now - h.createdAt ≤ 3600
  · have hhl : isClientHealthy (pool.clientHealth.lookup (cacheKey apiBase apiKey)) now = true := by
      rw [hh]
      simp only [isClientHealthy]
      split_ifs with h1 h2
      · omega
      · omega
      · rfl
    have hres : getClient pool apiBase apiKey now nextId = (pool, c, true) := by
      simp [getClient, hc, hhl]
    rw [hres]
    refine ⟨by simpa using hcond, fun _ => rfl, fun hfalse => by simp at hfalse⟩
  · have hhl : isClientHealthy (pool.clientHealth.lookup (cacheKey apiBase apiKey)) now = false := by
      rw [hh]
      simp only [isClientHealthy]
      split_ifs with h1 h2
      · rfl
      · rfl
      · exfalso; omega
    have hrm : (removeClient pool (cacheKey apiBase apiKey)).clients.lookup
        (cacheKey apiBase apiKey) = none := lookup_filter_ne _ _
    have hrmh : (removeClient pool (cacheKey apiBase apiKey)).clientHealth.lookup
        (cacheKey apiBase apiKey) = none := lookup_filter_ne _ _
    have hres : getClient pool apiBase apiKey now nextId =
        (createClient (removeClient pool (cacheKey apiBase apiKey)) (cacheKey apiBase apiKey)
          now nextId, nextId, false) := by
      simp [getClient, hc, hhl]
    have hcreate : createClient (removeClient pool (cacheKey apiBase apiKey))
        (cacheKey apiBase apiKey) now nextId =
        { clients := (removeClient pool (cacheKey apiBase apiKey)).clients
            ++ [(cacheKey apiBase apiKey, nextId)]
          clientHealth := (removeClient pool (cacheKey apiBase apiKey)).clientHealth
            ++ [(cacheKey apiBase apiKey, ⟨now, now, now, 0, 0, 0⟩)] } := by
      rw [createClient, hrm, dictUpdate_of_lookup_none _ _ _ hrm,
        dictUpdate_of_lookup_none _ _ _ hrmh]
    refine ⟨?_, ?_, ?_⟩
    · rw [hres]
      simpa using hcond
    · intro htrue
      rw [hres] at htrue
      simp at htrue
    · intro _
      rw [hres, hcreate]
      exact ⟨lookup_append_single _ _ _ hrm, lookup_append_single _ _ _ hrmh⟩

/-- Witness for the amended C4: a fresh healthy entry is reused. -/
theorem getClient_reuse_iff_witness :
    ((getClient ⟨[("e:k", 7)], [("e:k", ⟨0, 0, 0, 0, 0, 0⟩)]⟩ "e" "k" 10 9).2.2 = true ↔
      (((⟨0, 0, 0, 0, 0, 0⟩ : ClientHealth).failureCount < 5 ∨
        60 ≤ (10 : Int) - (⟨0, 0, 0, 0, 0, 0⟩ : ClientHealth).lastSuccess) ∧
        (10 : Int) - (⟨0, 0, 0, 0, 0, 0⟩ : ClientHealth).createdAt ≤ 3600)) ∧
    ((getClient ⟨[("e:k", 7)], [("e:k", ⟨0, 0, 0, 0, 0, 0⟩)]⟩ "e" "k" 10 9).2.2 = true →
      getClient ⟨[("e:k", 7)], [("e:k", ⟨0, 0, 0, 0, 0, 0⟩)]⟩ "e" "k" 10 9
        = (⟨[("e:k", 7)], [("e:k", ⟨0, 0, 0, 0, 0, 0⟩)]⟩, 7, true)) ∧
    ((getClient ⟨[("e:k", 7)], [("e:k", ⟨0, 0, 0, 0, 0, 0⟩)]⟩ "e" "k" 10 9).2.2 = false →
      (getClient ⟨[("e:k", 7)], [("e:k", ⟨0, 0, 0, 0, 0, 0⟩)]⟩ "e" "k" 10 9).1.clients.lookup
        (cacheKey "e" "k") = some 9 ∧
      (getClient ⟨[("e:k", 7)], [("e:k", ⟨0, 0, 0, 0, 0, 0⟩)]⟩ "e" "k" 10 9).1.clientHealth.lookup
        (cacheKey "e" "k") = some ⟨10, 10, 10, 0, 0, 0⟩) :=
  getClient_reuse_iff ⟨[("e:k", 7)], [("e:k", ⟨0, 0, 0, 0, 0, 0⟩)]⟩ "e" "k" 10 9 7
    ⟨0, 0, 0, 0, 0, 0⟩ (by decide) (by decide)

/-! ## Prompt budget — `src/agents/base_agent.py`, `_truncate_prompt_to_fit` -/

/-- Python string slicing `s[:b]` for an `int` bound `b`: a nonnegative bound
keeps the first `b` characters, a negative bound drops `-b` characters from
the end (clamped at zero).  Prompts are embedded as `List Char`. -/
def pySliceTo (s : List Char) (b : Int) : List Char :=
  if 0 ≤ b then s.take b.toNat else s.take (s.length - (-b).toNat)

/-- The marker `"\n\n[System prompt truncated to fit context...]"` appended at
`base_agent.py` line 232. -/
def systemTruncMarker : List Char := "\n\n[System prompt truncated to fit context...]".toList

/-- The marker `"\n\n[User prompt truncated to fit context...]"` appended at
`base_agent.py` line 237. -/
def userTruncMarker : List Char := "\n\n[User prompt truncated to fit context...]".toList

/-- `available_prompt_tokens * CHARS_PER_TOKEN` of `_truncate_prompt_to_fit`
(lines 210-211): `(max_context_tokens - max_completion_tokens) * 4`. -/
def availableChars (maxContextTokens maxCompletionTokens : Nat) : Int :=
  ((maxContextTokens : Int) - maxCompletionTokens) * 4

/-- `system_budget = int(available_chars * 0.3)` (line 224).  The source
computes this in floating point; it is embedded as `available_chars * 3 / 10`,
which for the nonnegative `available_chars` arising whenever
`max_completion_tokens ≤ max_context_tokens` is the same floor (up to the
float representation of `0.3`, which can shift the budget by one character at
isolated inputs — no theorem below depends on the exact cut point). -/
def systemBudget (maxContextTokens maxCompletionTokens : Nat) : Int :=
  availableChars maxContextTokens maxCompletionTokens * 3 / 10

/-- `user_budget = available_chars - system_budget` (line 225). -/
def userBudget (maxContextTokens maxCompletionTokens : Nat) : Int :=
  availableChars maxContextTokens maxCompletionTokens
    - systemBudget maxContextTokens maxCompletionTokens

/-- `BaseAgent._truncate_prompt_to_fit` (`base_agent.py` lines 193-242).
Token estimate: 1 token ≈ 4 characters.  If the prompts fit they are returned
unchanged; otherwise each prompt longer than its budget is cut to the budget
and its marker appended.  Returns
`(truncated_system, truncated_user, was_truncated)`. -/
def truncatePromptToFit (systemPrompt userPrompt : List Char)
    (maxContextTokens maxCompletionTokens : Nat) : List Char × List Char × Bool :=
  if (systemPrompt.length : Int) + userPrompt.length
      ≤ availableChars maxContextTokens maxCompletionTokens then
    (systemPrompt, userPrompt, false)
  else
    ((if (systemPrompt.length : Int) > systemBudget maxContextTokens maxCompletionTokens then
        pySliceTo systemPrompt (systemBudget maxContextTokens maxCompletionTokens)
          ++ systemTruncMarker
      else systemPrompt),
     (if (userPrompt.length : Int) > userBudget maxContextTokens maxCompletionTokens then
        pySliceTo userPrompt (userBudget maxContextTokens maxCompletionTokens)
          ++ userTruncMarker
      else userPrompt),
     true)

/-- **C5 fails on the code.**  With `max_context_tokens = 2` and one reserved
completion token (4 available characters), a 100-character system prompt and
a 100-character user prompt come back from the fit operation with an
estimated total of `(46 + 46) / 4 = 23` tokens — far above
`max_context − reserved = 1` — because the truncation markers are appended
after each prompt is cut to its budget. -/
theorem truncatePromptToFit_bound_counterexample :
    ¬ ((((truncatePromptToFit (List.replicate 100 'a') (List.replicate 100 'b') 2 1).1.length : Int)
        + ((truncatePromptToFit (List.replicate 100 'a') (List.replicate 100 'b') 2 1).2.1.length : Int)) / 4
      ≤ (2 : Int) - 1) := by
  decide

/-- **C5, amended.**  When the original prompts fit the budget
(`total_chars ≤ available_chars`) they are returned unchanged and unmarked.
Otherwise the system prompt is allotted 30% of the available characters and
the user prompt the remainder, but only a prompt exceeding its own allotment
is cut (to the allotment, with its marker appended) — one already within
budget is returned whole — and since the markers are appended after cutting,
the returned total may exceed the available characters by up to the two
marker lengths; the claimed token bound holds only up to that slack. -/
theorem truncatePromptToFit_amended (sys usr : List Char)
    (maxCtx reserved : Nat) (hres : reserved ≤ maxCtx) :
    (((sys.length : Int) + usr.length ≤ availableChars maxCtx reserved →
      truncatePromptToFit sys usr maxCtx reserved = (sys, usr, false))) ∧
    (availableChars maxCtx reserved < (sys.length : Int) + usr.length →
      (truncatePromptToFit sys usr maxCtx reserved).2.2 = true ∧
      ((truncatePromptToFit sys usr maxCtx reserved).1.length : Int)
          + ((truncatePromptToFit sys usr maxCtx reserved).2.1.length : Int)
        ≤ availableChars maxCtx reserved
          + systemTruncMarker.length + userTruncMarker.length ∧
      ((sys.length : Int) ≤ systemBudget maxCtx reserved →
        (truncatePromptToFit sys usr maxCtx reserved).1 = sys) ∧
      (systemBudget maxCtx reserved < (sys.length : Int) →
        (truncatePromptToFit sys usr maxCtx reserved).1
          = pySliceTo sys (systemBudget maxCtx reserved) ++ systemTruncMarker) ∧
      ((usr.length : Int) ≤ userBudget maxCtx reserved →
        (truncatePromptToFit sys usr maxCtx reserved).2.1 = usr) ∧
      (userBudget maxCtx reserved < (usr.length : Int) →
        (truncatePromptToFit sys usr maxCtx reserved).2.1
          = pySliceTo usr (userBudget maxCtx reserved) ++ userTruncMarker)) := by
  have havail : (0 : Int) ≤ availableChars maxCtx reserved := by
    have : (reserved : Int) ≤ maxCtx := by exact_mod_cast hres
    rw [availableChars]
    omega
  have hbudget0 : (0 : Int) ≤ systemBudget maxCtx reserved := by
    rw [systemBudget]
    omega
  have hbudgetle : systemBudget maxCtx reserved ≤ availableChars maxCtx reserved := by
    rw [systemBudget]
    omega
  constructor
  · intro hfit
    rw [truncatePromptToFit, if_pos hfit]
  · intro hover
    have hnfit : ¬ ((sys.length : Int) + usr.length ≤ availableChars maxCtx reserved) := by
      omega
    rw [truncatePromptToFit, if_neg hnfit]
    refine ⟨rfl, ?_, ?_, ?_, ?_, ?_⟩
    · have hm1 : (systemTruncMarker.length : Int) = 45 := by decide
      have hm2 : (userTruncMarker.length : Int) = 43 := by decide
      have hub : userBudget maxCtx reserved
          = availableChars maxCtx reserved - systemBudget maxCtx reserved := rfl
      by_cases hs : (sys.length : Int) > systemBudget maxCtx reserved <;>
        by_cases hu : (usr.length : Int) > userBudget maxCtx reserved
      · rw [if_pos hs, if_pos hu, pySliceTo, if_pos hbudget0, pySliceTo, if_pos (by omega)]
        simp only [List.length_append, List.length_take]
        push_cast
        omega
      · rw [if_pos hs, if_neg hu, pySliceTo, if_pos hbudget0]
        simp only [List.length_append, List.length_take]
        push_cast
        omega
      · rw [if_neg hs, if_pos hu, pySliceTo, if_pos (by omega)]
        simp only [List.length_append, List.length_take]
        push_cast
        omega
      · rw [if_neg hs, if_neg hu]
        push_cast
        omega
    · intro hsys
      rw [if_neg (by omega)]
    · intro hsys
      rw [if_pos (by omega)]
    · intro husr
      simp only
      rw [if_neg (by omega)]
    · intro husr
      simp only
      rw [if_pos (by omega)]

/-- Witness for the amended C5 at the counterexample's input: truncation is
reported. -/
theorem truncatePromptToFit_amended_witness :
    (truncatePromptToFit (List.replicate 100 'a') (List.replicate 100 'b') 2 1).2.2 = true :=
  ((truncatePromptToFit_amended (List.replicate 100 'a') (List.replicate 100 'b') 2 1
      (by decide)).2 (by decide)).1

/-! ## LLM invocation pipeline — `src/agents/base_agent.py`,
`_call_local_llama_server` (lines 244-368) and `execute_llm_task`
(lines 92-191) -/

/-- What one invocation of the chat-completions endpoint does.
`contextSizeError` models an exception whose text contains
`"exceeds the available context size"`; `limitTokens?` is the token count the
source parses out of the message with a regex (`None` when absent, defaulted
to 4096), and `msg` is `str(e)`.  `raiseError` is any other exception — e.g.
a connection error. -/
inductive EndpointOutcome where
  | ok (content : String)
  | timedOut
  | contextSizeError (limitTokens? : Option Nat) (msg : String)
  | raiseError (msg : String)
deriving DecidableEq, Repr

/-- The result dict of `_call_local_llama_server` / `execute_llm_task`:
`{"success": ..., "stdout": ..., "error": ...}` (the constant `stderr` and
`returncode` fields of the success dict are omitted). -/
structure LlmResult where
  success : Bool
  stdout : String
  error : String
deriving DecidableEq, Repr

/-- `BaseAgent._call_local_llama_server` (lines 244-368).  `outcomes idx` is
what the endpoint does on its `idx`-th invocation (each call consumes one
index; the returned `Nat` is the next index, so it counts endpoint
invocations).  `retriesLeft = 1 - retry_count`: the source permits exactly
one context-size retry (`if retry_count == 0`), re-invoking itself once with
the truncated prompts; with `retriesLeft = 0` a context-size error returns
the "persisted after truncation" failure.  Every exception is caught inside
the function and converted into an error dict — nothing is re-raised. -/
def callLocalLlamaServer (outcomes : Nat → EndpointOutcome) (timeoutS : Nat) :
    Nat → List Char → List Char → Nat → LlmResult × Nat
  | retriesLeft, systemPrompt, userPrompt, idx =>
    match outcomes idx with
    | .ok content => ({ success := true, stdout := content, error := "" }, idx + 1)
    | .timedOut =>
        ({ success := false, stdout := ""
           error := "Local llama-server request timed out after " ++ toString timeoutS
             ++ " seconds" }, idx + 1)
    | .contextSizeError limitTokens? msg =>
        let maxContextTokens := limitTokens?.getD 4096
        (match retriesLeft with
         | r + 1 =>
             let t := truncatePromptToFit systemPrompt userPrompt maxContextTokens 1024
             if t.2.2 then
               callLocalLlamaServer outcomes timeoutS r t.1 t.2.1 (idx + 1)
             else
               ({ success := false, stdout := ""
                  error := "Local llama-server error: " ++ msg }, idx + 1)
         | 0 =>
             ({ success := false, stdout := ""
                error := "Context size error persisted after truncation. Server limit: "
                  ++ toString maxContextTokens
                  ++ " tokens. Consider increasing LLAMA_CTX_SIZE or reducing prompt complexity." },
               idx + 1))
    | .raiseError msg =>
        ({ success := false, stdout := ""
           error := "Local llama-server error: " ++ msg }, idx + 1)

/-- The resilience wrapping of `execute_llm_task` (lines 157-178):
`retry_with_exponential_backoff(circuit_breaker.call(_call_local_llama_server),
...)` with `CircuitBreakerError` non-retriable and caught to produce the
"temporarily unavailable" result.  Because `_call_local_llama_server` catches
every exception internally and returns an error dict, the breaker-wrapped
callee either raises `CircuitBreakerError` before invoking it (while OPEN) or
returns normally on the first attempt — so the retry wrapper performs no
retries and returns the first result.  Returns the result dict, the breaker
after the call, and the next endpoint-invocation index. -/
def executeLlmTask (cb : CircuitBreaker) (now : Int) (outcomes : Nat → EndpointOutcome)
    (timeoutS : Nat) (systemPrompt userPrompt : List Char) (idx : Nat) :
    LlmResult × CircuitBreaker × Nat :=
  match cbCall cb now false with
  | (cb', CBCallResult.rejectedOpen) =>
      ({ success := false, stdout := ""
         error := "LLM service is temporarily unavailable (circuit breaker open). Please try again later." },
       cb', idx)
  | (cb', _) =>
      let r := callLocalLlamaServer outcomes timeoutS 1 systemPrompt userPrompt idx
      (r.1, cb', r.2)

/-- Claim C3's scenario (spec S4): `failure_threshold = 2`, the endpoint
raises a connection error on every call; `c3Scenario n` is the state after
`n` successive `execute_llm_task` calls (result of the n-th call, breaker,
endpoint-invocation count). -/
def c3Scenario : Nat → LlmResult × CircuitBreaker × Nat
  | 0 => ({ success := true, stdout := "", error := "" }, CircuitBreaker.mk0 2 60 3, 0)
  | n + 1 =>
      let prev := c3Scenario n
      executeLlmTask prev.2.1 n (fun _ => .raiseError "Connection error") 300 [] [] prev.2.2

/-- **C3 fails on the code (code bug).**  With `failure_threshold = 2` and an
endpoint raising a connection error on every call, all three successive
calls — including the third — invoke the endpoint (the invocation count is
1, 2, 3), each returns the generic `"Local llama-server error: ..."` failure
dict rather than the circuit-open "temporarily unavailable" error, and the
breaker stays CLOSED with failure count 0 throughout:
`_call_local_llama_server` catches every exception and returns an error
dict, so the circuit breaker, the retry wrapper and the
`except CircuitBreakerError` branch of `execute_llm_task` never observe a
failure. -/
theorem c3_circuit_never_opens :
    (c3Scenario 1).2.2 = 1 ∧ (c3Scenario 2).2.2 = 2 ∧ (c3Scenario 3).2.2 = 3 ∧
    (c3Scenario 3).1
      = { success := false, stdout := ""
          error := "Local llama-server error: Connection error" } ∧
    (c3Scenario 3).2.1 = CircuitBreaker.mk0 2 60 3 ∧
    (c3Scenario 3).2.1.state = CBState.closed ∧
    (c3Scenario 3).2.1.failureCount = 0 := by
  decide

/-! ## Conditional routing — `src/orchestrator/langgraph_orchestrator.py`,
`should_continue_after_implementation` (lines 687-717) -/

/-- An entry of the workflow state's `errors` list; `step` models
`e.get("step")` (`none` when the key is missing). -/
structure WorkflowError where
  step : Option String
  error : String
  timestamp : String
deriving DecidableEq, Repr

/-- A node-result record as stored in the per-node lists.  The routing
function reads only `r.get("status")`, which is all that is modelled. -/
structure NodeRecord where
  status : Option String
deriving DecidableEq, Repr

/-- The two state fields `should_continue_after_implementation` consults. -/
structure RoutingState where
  errors : List WorkflowError
  implementation : List NodeRecord
deriving DecidableEq, Repr

/-- The routing decision: `END`, or a list of `Send(target, state)` records. -/
inductive RouteDecision where
  | stop
  | sends (targets : List (String × RoutingState))
deriving DecidableEq, Repr

/-- `should_continue_after_implementation` (lines 687-717): stop when any
error has `step == "implementation"`; otherwise stop when the implementation
list is nonempty and its last record has `status == "failed"`; otherwise
dispatch `[Send("qa_testing", state), Send("infrastructure", state)]`. -/
def shouldContinueAfterImplementation (s : RoutingState) : RouteDecision :=
  let implErrors := s.errors.filter (fun e => e.step = some "implementation")
  if implErrors ≠ [] then .stop
  else
    match s.implementation.getLast? with
    | some r =>
        if r.status = some "failed" then .stop
        else .sends [("qa_testing", s), ("infrastructure", s)]
    | none => .sends [("qa_testing", s), ("infrastructure", s)]

/-- The termination condition exactly as claim C2 words it: some entry in
`errors` has step "implementation", or the most recent implementation record
has status "failed".  Stated from the spec, for comparison with
`should_continue_after_implementation`. -/
def specTerminateAfterImplementation (s : RoutingState) : Bool :=
  s.errors.any (fun e => e.step = some "implementation")
    || (match s.implementation.getLast? with
        | some r => r.status = some "failed"
        | none => false)

/-- **C2.**  For every workflow state, the conditional routing function after
the implementation node returns the end marker if and only if some entry in
`errors` has `step == "implementation"` or the most recent implementation
record has `status == "failed"`; in every other case it returns exactly the
two dispatch records `Send("qa_testing", state)` and
`Send("infrastructure", state)`, in that order. -/
theorem shouldContinueAfterImplementation_spec (s : RoutingState) :
    shouldContinueAfterImplementation s =
      (if specTerminateAfterImplementation s then RouteDecision.stop
       else RouteDecision.sends [("qa_testing", s), ("infrastructure", s)]) := by
  rw [shouldContinueAfterImplementation, specTerminateAfterImplementation]
  by_cases herr : s.errors.filter (fun e => e.step = some "implementation") = []
  · have hany : s.errors.any (fun e => e.step = some "implementation") = false := by
      rw [List.any_eq_false]
      intro e he
      have := List.filter_eq_nil_iff.mp herr e he
      simpa using this
    simp only [herr, hany, Bool.false_or, ne_eq, not_true_eq_false, if_false]
    cases hlast : s.implementation.getLast? with
    | none => simp
    | some r =>
        by_cases hst : r.status = some "failed"
        · simp [hst]
        · simp [hst]
  · have hany : s.errors.any (fun e => e.step = some "implementation") = true := by
      rw [List.any_eq_true]
      obtain ⟨x, hx⟩ := List.exists_mem_of_ne_nil _ herr
      have hmem := List.mem_filter.mp hx
      exact ⟨x, hmem.1, by simpa using hmem.2⟩
    rw [if_pos herr, hany]
    simp

/-! ## Documentation node — `src/orchestrator/langgraph_orchestrator.py`,
`technical_writer_node` (lines 576-683) -/

/-- The `completed_task.result` dict as far as the node reads it
(`result.get("files_created", [])`). -/
structure DocResult where
  filesCreated : List String
deriving DecidableEq, Repr

/-- Outcome of the technical-writer agent task as the node sees it:
`run_task` hands back a task with an `error` field (`None` or a string — the
node tests its truthiness) and a `result`, or the node body raises and the
`except` clause catches. -/
inductive DocTaskOutcome where
  | ran (error : Option String) (result? : Option DocResult)
  | raised (excMsg : String)
deriving DecidableEq, Repr

/-- Python truthiness of `completed_task.error`: `None` and `""` are falsy. -/
def strTruthy (s? : Option String) : Bool :=
  match s? with
  | none => false
  | some s => ¬ s.isEmpty

/-- The partial update `technical_writer_node` returns.  Dict keys that a
branch omits are modelled as `[]` / `none`. -/
structure DocNodeUpdate where
  errors : List WorkflowError
  documentation : List DocResult
  filesCreated : List String
  currentStep : String
  completedSteps : List String
  status : String
  completedAt : Option String
deriving DecidableEq, Repr

/-- `technical_writer_node` (lines 576-683), reduced to the branch on the
task outcome; `ts` is the `datetime.now().isoformat()` timestamp.  The
task-error branch (lines 628-641), the success branch (lines 658-666) and the
exception branch (lines 668-683) all return `status = "completed"`. -/
def technicalWriterNode (outcome : DocTaskOutcome) (ts : String) : DocNodeUpdate :=
  match outcome with
  | .ran error result? =>
      if strTruthy error then
        { errors := [⟨some "documentation", error.getD "", ts⟩]
          documentation := []
          filesCreated := []
          currentStep := "documentation"
          completedSteps := ["documentation"]
          status := "completed"
          completedAt := none }
      else
        { errors := []
          documentation := (match result? with | some r => [r] | none => [])
          filesCreated := (match result? with | some r => r.filesCreated | none => [])
          currentStep := "documentation"
          completedSteps := ["documentation"]
          status := "completed"
          completedAt := some ts }
  | .raised excMsg =>
      { errors := [⟨some "documentation", excMsg, ts⟩]
        documentation := []
        filesCreated := []
        currentStep := "documentation"
        completedSteps := ["documentation"]
        status := "completed"
        completedAt := some ts }

/-- **C10.**  For every input, when the documentation (technical-writer) task
fails — whether the agent task returns a (truthy) error or the node raises an
exception — the node's returned partial update still sets `status` to
`"completed"` while appending an errors entry with step `"documentation"`
and marking the step completed; `status` has replace semantics and
`documentation` is the terminal node, so such a workflow ends with final
status `"completed"` rather than `"failed"`. -/
theorem technicalWriterNode_failure_completes (outcome : DocTaskOutcome) (ts : String)
    (hfail : (match outcome with
              | .ran error _ => strTruthy error = true
              | .raised _ => True)) :
    (technicalWriterNode outcome ts).status = "completed" ∧
    (∃ e ∈ (technicalWriterNode outcome ts).errors, e.step = some "documentation") ∧
    "documentation" ∈ (technicalWriterNode outcome ts).completedSteps := by
  cases outcome with
  | ran error result? =>
      have htrue : strTruthy error = true := hfail
      simp [technicalWriterNode, htrue]
  | raised excMsg =>
      simp [technicalWriterNode]

/-- Witness for C10: the node body raising an exception still yields a
"completed" update with a documentation error entry. -/
theorem technicalWriterNode_failure_completes_witness :
    (technicalWriterNode (.raised "boom") "t0").status = "completed" ∧
    (∃ e ∈ (technicalWriterNode (.raised "boom") "t0").errors, e.step = some "documentation") ∧
    "documentation" ∈ (technicalWriterNode (.raised "boom") "t0").completedSteps :=
  technicalWriterNode_failure_completes (.raised "boom") "t0" trivial

/-! ## Generated-file extractor — `src/utils/file_writer.py`,
`FileWriter.extract_file_structure` (lines 344-574)

The source is built from `re.finditer` passes; each regular expression is
embedded as a deterministic matcher implementing its exact greedy/lazy
semantics (Python `re` backtracking is deterministic: leftmost match,
greedy/lazy quantifiers).  Texts are `List Char`. -/

/-- Python `\s` (its ASCII range; the texts handled are ASCII). -/
def isPySpace (c : Char) : Bool :=
  c = ' ' ∨ c = '\t' ∨ c = '\n' ∨ c = '\r' ∨ c = '\x0b' ∨ c = '\x0c'

/-- Python `\w` (its ASCII range). -/
def isPyWord (c : Char) : Bool :=
  c.isAlphanum ∨ c = '_'

/-- The sublist `t[i:j]`. -/
def slice (t : List Char) (i j : Nat) : List Char :=
  (t.drop i).take (j - i)

/-- End of the maximal `\s*` run from `i` (greedy, includes newlines). -/
def skipWS (t : List Char) (i : Nat) : Nat :=
  i + ((t.drop i).takeWhile isPySpace).length

/-- End of the maximal `\w+`-candidate run from `i` (may be empty). -/
def wordRunEnd (t : List Char) (i : Nat) : Nat :=
  i + ((t.drop i).takeWhile isPyWord).length

/-- End of the maximal `[^\n]*` run from `i`. -/
def nonNlRunEnd (t : List Char) (i : Nat) : Nat :=
  i + ((t.drop i).takeWhile (fun c => c ≠ '\n')).length

/-- `remaining_text.find('\n', i)` (or end of text): end of the line. -/
def lineEnd (t : List Char) (i : Nat) : Nat :=
  nonNlRunEnd t i

/-- Does the literal `lit` occur at position `i`? -/
def litAt (t : List Char) (i : Nat) (lit : List Char) : Bool :=
  (t.drop i).take lit.length = lit

/-- Greedy `(?:-\w+)*` continuation after a word run ending at `i`: keep
consuming `-word` units.  `fuel ≥ t.length` suffices. -/
def langChainEnd (t : List Char) : Nat → Nat → Nat
  | 0, i => i
  | f + 1, i =>
      match t.get? i with
      | some '-' =>
          let j := wordRunEnd t (i + 1)
          if j > i + 1 then langChainEnd t f j else i
      | _ => i

/-- End of the header tail `\s*(?:\w+(?:-\w+)*)?\s*\n?` from `i` (what
follows the three backticks in patterns 2 and 3): greedy whitespace, then an
optional language token — which, because `\s*` greedily crosses newlines,
can swallow the first word of the block's body — then greedy whitespace (the
final `\n?` is subsumed). -/
def fenceTailEnd (t : List Char) (i : Nat) : Nat :=
  let j := skipWS t i
  let w := wordRunEnd t j
  if w > j then skipWS t (langChainEnd t t.length w) else j

/-- Strip `pred`-characters from both ends (Python `str.strip(chars)`). -/
def stripWhile (s : List Char) (pred : Char → Bool) : List Char :=
  ((s.dropWhile pred).reverse.dropWhile pred).reverse

/-- Python `str.strip()`. -/
def pyStripWS (s : List Char) : List Char :=
  stripWhile s isPySpace

/-- `FileWriter._sanitize_filename` (lines 20-34): strip whitespace, strip
surrounding backticks/asterisks, then strip them from each `/`-separated
segment. -/
def sanitizeFilename (s : List Char) : List Char :=
  let s1 := pyStripWS s
  let s2 := stripWhile s1 (fun c => c = '`' ∨ c = '*')
  let parts := s2.splitOn '/'
  List.intercalate ['/'] (parts.map (fun p => stripWhile p (fun c => c = '`' ∨ c = '*')))

/-- Largest position in `[a, b)` holding a non-newline character, scanning
downward (the backtracking of a greedy `\s*` when the following `[^\n]+`
has nothing left to match). -/
def lastNonNlBefore (t : List Char) (a : Nat) : Nat → Option Nat
  | 0 => none
  | b + 1 =>
      if b < a then none
      else
        match t.get? b with
        | some c => if c ≠ '\n' then some b else lastNonNlBefore t a b
        | none => lastNonNlBefore t a b

/-- Pattern 1 header, `pattern_colon` (line 360):
`\x60\x60\x60\s*(?:\w+(?:-\w+)*):\s*([^\n]+)\s*\n?` at position `i`.  The
`\s*` before the language greedily crosses newlines, so a closing fence
followed by a `File:` line also matches (the colon of `File:`).  Returns
(captured filename, match end). -/
def matchColonHeader (t : List Char) (i : Nat) : Option (List Char × Nat) :=
  if litAt t i ("```".toList) then
    let j := skipWS t (i + 3)
    let w := wordRunEnd t j
    if w > j then
      let c := langChainEnd t t.length w
      if t.get? c = some ':' then
        let a := c + 1
        let j2 := skipWS t a
        if j2 < t.length then
          let ge := nonNlRunEnd t j2
          some (slice t j2 ge, skipWS t ge)
        else
          match lastNonNlBefore t a j2 with
          | some k =>
              let ge := nonNlRunEnd t k
              some (slice t k ge, skipWS t ge)
          | none => none
      else none
    else none
  else none

/-- Pattern 2 header with bold, `pattern_bold` (line 432):
`\*\*File:\s*\x60([^\x60]+)\x60\*\*\s*\n?\s*\x60\x60\x60` followed by the
optional-language tail. -/
def matchBoldHeader (t : List Char) (i : Nat) : Option (List Char × Nat) :=
  if litAt t i ("**File:".toList) then
    let j := skipWS t (i + 7)
    if t.get? j = some '`' then
      let gs := j + 1
      let ge := gs + ((t.drop gs).takeWhile (fun c => c ≠ '`')).length
      if ge > gs ∧ t.get? ge = some '`' ∧ litAt t (ge + 1) ("**".toList) then
        let k := skipWS t (ge + 3)
        if litAt t k ("```".toList) then some (slice t gs ge, fenceTailEnd t (k + 3))
        else none
      else none
    else none
  else none

/-- Pattern 2 header without bold, `pattern_no_bold` (line 475):
`File:\s*\x60([^\x60]+)\x60\s*\n?\s*\x60\x60\x60` followed by the
optional-language tail. -/
def matchNoBoldHeader (t : List Char) (i : Nat) : Option (List Char × Nat) :=
  if litAt t i ("File:".toList) then
    let j := skipWS t (i + 5)
    if t.get? j = some '`' then
      let gs := j + 1
      let ge := gs + ((t.drop gs).takeWhile (fun c => c ≠ '`')).length
      if ge > gs ∧ t.get? ge = some '`' then
        let k := skipWS t (ge + 1)
        if litAt t k ("```".toList) then some (slice t gs ge, fenceTailEnd t (k + 3))
        else none
      else none
    else none
  else none

/-- The lazy group of pattern 3: try group ends `ge = gs+1, gs+2, …` (shortest
first, all characters non-newline, so `ge ≤ nlMax`); the remainder
`\s*\n+\s*\x60\x60\x60` requires the whitespace run after the group to
contain a newline and end at three backticks. -/
def p3TryGroup (t : List Char) (gs nlMax : Nat) : Nat → Nat → Option (List Char × Nat)
  | 0, _ => none
  | f + 1, ge =>
      if ge > nlMax then none
      else
        let u := skipWS t ge
        if (slice t ge u).any (fun c => c = '\n') ∧ litAt t u ("```".toList) then
          some (slice t gs ge, fenceTailEnd t (u + 3))
        else p3TryGroup t gs nlMax f (ge + 1)

/-- The greedy `\s+` of pattern 3: try runs from the maximal one down to one
character (`r` is the current run end, `lo` the run start). -/
def p3SearchWS (t : List Char) (lo : Nat) : Nat → Nat → Option (List Char × Nat)
  | 0, _ => none
  | f + 1, r =>
      if r ≤ lo then none
      else
        match p3TryGroup t r (nonNlRunEnd t r) (t.length + 1) (r + 1) with
        | some res => some res
        | none => p3SearchWS t lo f (r - 1)

/-- Pattern 3 header, `pattern_no_backticks` (line 518):
`File:\s+([^\n]+?)\s*\n+\s*\x60\x60\x60` followed by the optional-language
tail. -/
def matchP3Header (t : List Char) (i : Nat) : Option (List Char × Nat) :=
  if litAt t i ("File:".toList) then
    let wsEnd := skipWS t (i + 5)
    if wsEnd > i + 5 then p3SearchWS t (i + 5) (t.length + 1) wsEnd
    else none
  else none

/-- One match of the fence-line scan `(?:^|\n)\s*\x60\x60\x60` (MULTILINE) at
scan position `p`: the zero-width `^` applies at position 0 or right after a
newline; otherwise the `\n` alternative must consume a newline at `p`.  In
both cases the greedy `\s*` runs to the same place.  Returns the match end. -/
def fenceLineMatchAt (t : List Char) (p : Nat) : Option Nat :=
  if p = 0 ∨ t.get? (p - 1) = some '\n' ∨ t.get? p = some '\n' then
    (let j := skipWS t p
     if litAt t j ("```".toList) then some (j + 3) else none)
  else none

/-- The depth-tracking closing-fence search of `extract_file_structure`
(lines 379-403, repeated at 446-464, 490-507, 536-553): walk the fence-line
matches in order; a fence with content after it on its line opens
(depth + 1), otherwise it closes (depth − 1); return the start of the match
that brings the depth from the initial 1 to 0. -/
def findCloseFenceAux (t : List Char) : Nat → Nat → Nat → Option Nat
  | 0, _, _ => none
  | f + 1, p, depth =>
      if p ≥ t.length then none
      else
        match fenceLineMatchAt t p with
        | some e =>
            let rest := slice t e (lineEnd t e)
            if rest.any (fun c => ¬ isPySpace c) then
              findCloseFenceAux t f e (depth + 1)
            else
              if depth - 1 = 0 then some p
              else findCloseFenceAux t f e (depth - 1)
        | none => findCloseFenceAux t f (p + 1) depth

/-- Entry point of the closing-fence search, at depth 1. -/
def findCloseFence (t : List Char) : Option Nat :=
  findCloseFenceAux t (t.length + 1) 0 1

/-- Pattern 1's first fallback (lines 405-408): the first line-anchored bare
fence, `^\x60\x60\x60\s*(?:\n|$)` (MULTILINE). -/
def fallbackClose1 (t : List Char) : Nat → Nat → Option Nat
  | 0, _ => none
  | f + 1, p =>
      if p ≥ t.length then none
      else if ((p = 0 ∨ t.get? (p - 1) = some '\n') ∧ litAt t p ("```".toList)) then
        (let u := skipWS t (p + 3)
         if (slice t (p + 3) u).any (fun c => c = '\n') ∨ u = t.length then some p
         else fallbackClose1 t f (p + 1))
      else fallbackClose1 t f (p + 1)

/-- Pattern 1's second fallback (lines 409-413): the first bare fence
anywhere, `\x60\x60\x60\s*(?:\n|$)`. -/
def fallbackClose2 (t : List Char) : Nat → Nat → Option Nat
  | 0, _ => none
  | f + 1, p =>
      if p ≥ t.length then none
      else if litAt t p ("```".toList) then
        (let u := skipWS t (p + 3)
         if (slice t (p + 3) u).any (fun c => c = '\n') ∨ u = t.length then some p
         else fallbackClose2 t f (p + 1))
      else fallbackClose2 t f (p + 1)

/-- `re.finditer` with a header matcher: scan left to right, non-overlapping;
record (start, capture, end). -/
def findMatches (matcher : List Char → Nat → Option (List Char × Nat)) (t : List Char) :
    Nat → Nat → List (Nat × List Char × Nat)
  | 0, _ => []
  | f + 1, p =>
      if p ≥ t.length then []
      else
        match matcher t p with
        | some (g, e) => (p, g, e) :: findMatches matcher t f (max e (p + 1))
        | none => findMatches matcher t f (p + 1)

/-- Pattern 1's per-match loop (lines 363-417): bound the search at the next
match (or end of text), find the closing fence — depth search first, then the
two fallbacks — and on success store the stripped content under the
sanitized filename (Python-dict assignment). -/
def processColonMatches (t : List Char) :
    List (Nat × List Char × Nat) → List (List Char × List Char) →
    List (List Char × List Char)
  | [], files => files
  | (_, g, e) :: rest, files =>
      let endSearch := match rest with
        | (s2, _, _) :: _ => s2
        | [] => t.length
      let rem := slice t e endSearch
      let close? :=
        match findCloseFence rem with
        | some c => some c
        | none =>
            match fallbackClose1 rem (rem.length + 1) 0 with
            | some c => some c
            | none => fallbackClose2 rem (rem.length + 1) 0
      match close? with
      | some c =>
          processColonMatches t rest
            (dictUpdate files (sanitizeFilename g) (pyStripWS (rem.take c)))
      | none => processColonMatches t rest files

/-- Pattern 2's per-match loop (both bold, lines 435-468, and no-bold, lines
478-511): depth search only; on success store the stripped content (the
source has no emptiness check here). -/
def processFileMarkerMatches (t : List Char) :
    List (Nat × List Char × Nat) → List (List Char × List Char) →
    List (List Char × List Char)
  | [], files => files
  | (_, g, e) :: rest, files =>
      let endSearch := match rest with
        | (s2, _, _) :: _ => s2
        | [] => t.length
      let rem := slice t e endSearch
      match findCloseFence rem with
      | some c =>
          processFileMarkerMatches t rest
            (dictUpdate files (sanitizeFilename g) (pyStripWS (rem.take c)))
      | none => processFileMarkerMatches t rest files

/-- Pattern 3's per-match loop (lines 521-571): store only nonempty stripped
content; when no closing fence is found and this is the last match, fall back
to all remaining text. -/
def processP3Matches (t : List Char) :
    List (Nat × List Char × Nat) → List (List Char × List Char) →
    List (List Char × List Char)
  | [], files => files
  | (_, g, e) :: rest, files =>
      let endSearch := match rest with
        | (s2, _, _) :: _ => s2
        | [] => t.length
      let rem := slice t e endSearch
      match findCloseFence rem with
      | some c =>
          let content := pyStripWS (rem.take c)
          if content ≠ [] then
            processP3Matches t rest (dictUpdate files (sanitizeFilename g) content)
          else processP3Matches t rest files
      | none =>
          match rest with
          | [] =>
              let content := pyStripWS rem
              if content ≠ [] then dictUpdate files (sanitizeFilename g) content
              else files
          | _ :: _ => processP3Matches t rest files

/-- `FileWriter.extract_file_structure` (lines 344-574): try pattern 1
(`lang:filename` fences); return its files if every match produced one;
otherwise also run pattern 2 with bold markers, pattern 2 without bold (only
when no bold marker matched), and pattern 3 (`File:` without backticks), all
updating the same insertion-ordered dict. -/
def extractFileStructure (t : List Char) : List (List Char × List Char) :=
  let colonMatches := findMatches matchColonHeader t (t.length + 1) 0
  let files1 := processColonMatches t colonMatches []
  if files1 ≠ [] ∧ files1.length = colonMatches.length then files1
  else
    let boldMatches := findMatches matchBoldHeader t (t.length + 1) 0
    let files2 := processFileMarkerMatches t boldMatches files1
    let files3 :=
      if boldMatches = [] then
        processFileMarkerMatches t (findMatches matchNoBoldHeader t (t.length + 1) 0) files2
      else files2
    processP3Matches t (findMatches matchP3Header t (t.length + 1) 0) files3

/-- **C1 fails on the code (code bug).**  On the canonical input —
`File:` marker, bare fence, `pytest>=7.0.0`, closing fence —
`extract_file_structure` returns a single entry keyed `requirements.txt`
(no key starting with `>=`), but its content is the truncated `">=7.0.0"`:
the greedy `\s*` in the header regexes crosses the newline after the bare
fence, so `pytest` is consumed as a language token.  The repository's own
test `tests/test_file_parser.py::test_requirements_txt_bug` asserts the
content equals `"pytest>=7.0.0"` exactly. -/
theorem extract_requirements_truncates_content :
    extractFileStructure "File: `requirements.txt`\n```\npytest>=7.0.0\n```".toList
      = [("requirements.txt".toList, ">=7.0.0".toList)] := by
  decide

/-- **C8.**  For the input consisting of the marker `File:` +
backtick-quoted `README.md` followed by a fenced markdown block whose body
contains a complete inner fenced python block, the extractor returns exactly
one entry keyed `README.md` — no spurious second entry — whose content
contains the entire inner fenced block verbatim (second conjunct: the
explicit decomposition around the inner block), and the content extends past
the inner block's bare closing fence up to the fence that brings the nesting
depth to 0. -/
theorem extract_nested_fences_readme :
    extractFileStructure
        "File: `README.md`\n```markdown\n# Usage\n\n```python\nprint(1)\n```\n\ndone\n```".toList
      = [("README.md".toList, "# Usage\n\n```python\nprint(1)\n```\n\ndone".toList)] ∧
    "# Usage\n\n```python\nprint(1)\n```\n\ndone".toList
      = "# Usage\n\n".toList ++ "```python\nprint(1)\n```".toList ++ "\n\ndone".toList := by
  decide

/-- The `serialize_back` of claim C9 (spec invariant 3): each entry written
as the line `File:` + backtick-quoted path, a bare fence, the content, and a
closing fence; the fragments are concatenated. -/
def serializeBack (entries : List (List Char × List Char)) : List Char :=
  (entries.map (fun p =>
    "File: `".toList ++ p.1 ++ "`\n```\n".toList ++ p.2 ++ "\n```\n".toList)).flatten

/-- **C9 fails on the code (code bug).**  The single-entry list
`[("a.txt", "hello world")]` does not round-trip: the serialized document
extracts to content `"world"` (the fence-tail regex consumes `hello` as a
language token), and serializing that result and extracting again strips the
content entirely — so `extract ∘ serialize_back` is not the identity on the
extracted entries, and `extract (serialize_back (extract t))` differs from
`extract t` for `t` the serialized document.  The root defect is the same
language-token consumption that the repository's own
`tests/test_file_parser.py::test_requirements_txt_bug` flags. -/
theorem extract_serialize_roundtrip_fails :
    extractFileStructure (serializeBack [("a.txt".toList, "hello world".toList)])
      = [("a.txt".toList, "world".toList)] ∧
    extractFileStructure (serializeBack (extractFileStructure
        (serializeBack [("a.txt".toList, "hello world".toList)])))
      = [("a.txt".toList, "".toList)] := by
  decide

end MultiAgent
